import Mathlib

/-!
Verification of the bounding-box annotation editor (Canvas components).

Coordinates are modelled as rational numbers: the editor's geometry logic
consists of field arithmetic, comparisons and branching, none of which
depends on floating-point rounding.  JavaScript reference identity of the
live list (compared with `!==` by the history logic) is modelled by a
revision counter: every commit through `onUpdateAnnotations` allocates a
fresh array (`map` / spread) and the host stores exactly that reference,
so "same reference" coincides with "same revision".
-/

namespace AutoLabel

/-- Pixel-space rectangle in top-left form, mirroring the `{x, y, w, h}`
rect values used by both canvas components. -/
structure Rect where
  x : ℚ
  y : ℚ
  w : ℚ
  h : ℚ
deriving DecidableEq, Repr

/-- Normalized geometry fields (center + size) as produced by `svgToYolo`. -/
structure NormBox where
  x : ℚ
  y : ℚ
  w : ℚ
  h : ℚ
deriving DecidableEq, Repr

/-- Bounding box record from `types.ts`: opaque id, label-class reference,
and normalized center/size geometry. -/
structure BBox where
  id : String
  labelId : String
  x : ℚ
  y : ℚ
  w : ℚ
  h : ℚ
deriving DecidableEq, Repr

/-- Modelled from the spec: `yoloToSvg` lives in `services/yoloService`,
which is not among the provided sources.  Spec §4.1 (`normalizedToPixel`):
`w = box.w * frame.pixelWidth`, `h = box.h * frame.pixelHeight`,
`x = box.x * frame.pixelWidth - w / 2`, `y = box.y * frame.pixelHeight - h / 2`. -/
def yoloToSvg (a : BBox) (iw ih : ℚ) : Rect :=
  { x := a.x * iw - a.w * iw / 2
  , y := a.y * ih - a.h * ih / 2
  , w := a.w * iw
  , h := a.h * ih }

/-- Modelled from the spec: `svgToYolo` lives in `services/yoloService`,
which is not among the provided sources.  Spec §4.1 (`pixelToNormalized`):
the exact inverse of `normalizedToPixel`, producing center-based
normalized coordinates. -/
def svgToYolo (x y w h iw ih : ℚ) : NormBox :=
  { x := (x + w / 2) / iw
  , y := (y + h / 2) / ih
  , w := w / iw
  , h := h / ih }

/-- The `{ ...a, ...newYolo }` spread used at every geometry write-back:
keeps `id` and `labelId`, overwrites the geometry fields. -/
def applyGeom (a : BBox) (g : NormBox) : BBox :=
  { a with x := g.x, y := g.y, w := g.w, h := g.h }

/-- Result record of `getClosestSnap` (`{ val, snapped }`). -/
structure SnapResult where
  val : ℚ
  snapped : Bool
deriving DecidableEq, Repr

/-- The three mutable locals of the `forEach` scan inside `getClosestSnap`. -/
structure SnapAcc where
  closest : ℚ
  snapped : Bool
  minD : ℚ
deriving DecidableEq, Repr

/-- One `forEach` iteration of the `getClosestSnap` scan: replace the
running best only on a strictly smaller distance. -/
def snapStep (val : ℚ) (acc : SnapAcc) (line : ℚ) : SnapAcc :=
  if |val - line| < acc.minD then { closest := line, snapped := true, minD := |val - line| }
  else acc

/-- `getClosestSnap` of the model-manager canvas: scan the candidate lines
in order with the running minimum initialized to `threshold`. -/
def getClosestSnapModal (val : ℚ) (lines : List ℚ) (threshold : ℚ) : SnapResult :=
  { val := (lines.foldl (snapStep val) ⟨val, false, threshold⟩).closest
  , snapped := (lines.foldl (snapStep val) ⟨val, false, threshold⟩).snapped }

/-- `getClosestSnap` of the main canvas: identical scan, preceded by the
`SNAP_DIST_PX <= 0` early return that disables snapping entirely. -/
def getClosestSnap (snapDistPx val : ℚ) (lines : List ℚ) (threshold : ℚ) : SnapResult :=
  if snapDistPx ≤ 0 then { val := val, snapped := false }
  else getClosestSnapModal val lines threshold

/-- Tool modes from `types.ts` (`SELECT`, `DRAW`, `PAN`, `MAGIC_BOX`). -/
inductive ToolMode
  | select
  | draw
  | pan
  | magicBox
deriving DecidableEq, Repr

/-- The four corner handles (`'tl' | 'tr' | 'bl' | 'br'`). -/
inductive HandleType
  | tl
  | tr
  | bl
  | br
deriving DecidableEq, Repr

/-- The live annotation list together with a revision counter standing in
for JavaScript reference identity: every `onUpdateAnnotations` commit
allocates a fresh array and the host stores exactly that reference, so two
reference-equal lists are exactly two lists with the same revision. -/
structure RevList where
  rev : ℕ
  val : List BBox
deriving DecidableEq, Repr

/-- Combined state of the main `Canvas` component and its host-owned props:
interaction state, snapping state, history stacks, and the refs used by the
"smart" history logic. -/
structure CanvasState where
  mode : ToolMode
  imageId : String
  imageW : ℚ
  imageH : ℚ
  anns : RevList
  selectedAnnId : Option String
  currentLabelId : String
  zoom : ℚ
  panX : ℚ
  panY : ℚ
  snapPixelDistance : ℚ
  isDragging : Bool
  dragStart : Option (ℚ × ℚ)
  activeCreation : Option Rect
  draggingAnnId : Option String
  resizeHandle : Option HandleType
  initialMoveRect : Option Rect
  snapLineX : Option ℚ
  snapLineY : Option ℚ
  undoStack : List (List BBox)
  redoStack : List (List BBox)
  prevAnns : RevList
  prevImageId : String
  isHistoryAction : Bool
  dragStartAnns : RevList
  isUndoRedo : Bool
deriving DecidableEq, Repr

/-- `getMousePos`: container-relative pointer position mapped into image
space by undoing pan and zoom. -/
def getMousePos (s : CanvasState) (px py : ℚ) : ℚ × ℚ :=
  ((px - s.panX) / s.zoom, (py - s.panY) / s.zoom)

/-- `getSnapLines`: the image bounds plus the pixel edges of every
annotated box other than `excludeId`, first the x candidates then the y
candidates. -/
def getSnapLines (s : CanvasState) (excludeId : Option String) : List ℚ × List ℚ :=
  s.anns.val.foldl
    (fun (acc : List ℚ × List ℚ) a =>
      if some a.id = excludeId then acc
      else
        let r := yoloToSvg a s.imageW s.imageH
        (acc.1 ++ [r.x, r.x + r.w], acc.2 ++ [r.y, r.y + r.h]))
    ([0, s.imageW], [0, s.imageH])

/-- The history `useEffect` of the main canvas: reset both stacks on an
image switch; otherwise, on a list replacement, push the previously seen
list unless a gesture is in progress (`isHistoryAction`) or the change came
from this component's own undo/redo (`isUndoRedo`). -/
def historyEffect (s : CanvasState) : CanvasState :=
  if s.imageId ≠ s.prevImageId then
    { s with undoStack := [], redoStack := [],
             prevImageId := s.imageId, prevAnns := s.anns }
  else if s.anns ≠ s.prevAnns then
    if s.isHistoryAction then s
    else if s.isUndoRedo = false then
      { s with undoStack := s.undoStack ++ [s.prevAnns.val], redoStack := [],
               prevAnns := s.anns, isUndoRedo := false }
    else
      { s with prevAnns := s.anns, isUndoRedo := false }
  else s

/-- One `onUpdateAnnotations(l)` call: the host stores the freshly
allocated list (new revision), and the history effect then observes the
changed dependency. -/
def commitAnns (s : CanvasState) (l : List BBox) : CanvasState :=
  historyEffect { s with anns := ⟨s.anns.rev + 1, l⟩ }

/-- `handleMouseDown` on the container (empty canvas): flag a history
action for draw/select, then branch on the tool mode. -/
def handleMouseDown (s : CanvasState) (px py : ℚ) : CanvasState :=
  let p := getMousePos s px py
  let s1 := if s.mode = ToolMode.draw ∨ s.mode = ToolMode.select then
      { s with dragStartAnns := s.anns, isHistoryAction := true }
    else s
  if s1.mode = ToolMode.pan then
    { s1 with isDragging := true, dragStart := some (px, py) }
  else if s1.mode = ToolMode.draw ∨ s1.mode = ToolMode.magicBox then
    { s1 with isDragging := true, activeCreation := some ⟨p.1, p.2, 0, 0⟩,
              dragStart := some p, selectedAnnId := none }
  else if s1.mode = ToolMode.select then
    { s1 with selectedAnnId := none }
  else s1

/-- One axis of the move-gesture snap application: test the leading edge,
then the trailing edge, else keep the raw delta-translated edge; also
report the guide line used. -/
def moveAxis (spx edge0 len : ℚ) (lines : List ℚ) (threshold : ℚ) : ℚ × Option ℚ :=
  let snapLead := getClosestSnap spx edge0 lines threshold
  let snapTrail := getClosestSnap spx (edge0 + len) lines threshold
  if snapLead.snapped then (snapLead.val, some snapLead.val)
  else if snapTrail.snapped then (snapTrail.val - len, some snapTrail.val)
  else (edge0, none)

/-- The per-handle rectangle recomputation of the main canvas resize
branch (no clamping; the caller guards on positive dimensions). -/
def resizeDims (rect : Rect) (handle : HandleType) (mx my : ℚ) : Rect :=
  match handle with
  | HandleType.tl => ⟨mx, my, rect.x + rect.w - mx, rect.y + rect.h - my⟩
  | HandleType.tr => ⟨rect.x, my, mx - rect.x, rect.y + rect.h - my⟩
  | HandleType.bl => ⟨mx, rect.y, rect.x + rect.w - mx, my - rect.y⟩
  | HandleType.br => ⟨rect.x, rect.y, mx - rect.x, my - rect.y⟩

/-- The `snapped ? value : null` guide-line reporting used by every
snapping branch. -/
def snapVisual (r : SnapResult) : Option ℚ :=
  if r.snapped then some r.val else none

/-- The `DRAW`-mode creation branch of `handleMouseMove`: snap the cursor,
then span the rectangle from the anchor with non-negative dimensions. -/
def drawCreationMove (s : CanvasState) (p : ℚ × ℚ) (threshold : ℚ) : CanvasState :=
  match s.dragStart with
  | none => s
  | some d =>
      let ls := getSnapLines s none
      let sx := getClosestSnap s.snapPixelDistance p.1 ls.1 threshold
      let sy := getClosestSnap s.snapPixelDistance p.2 ls.2 threshold
      { s with
        activeCreation := some ⟨min d.1 sx.val, min d.2 sy.val, |sx.val - d.1|, |sy.val - d.2|⟩,
        snapLineX := snapVisual sx,
        snapLineY := snapVisual sy }

/-- The resize branch of the main canvas `handleMouseMove`: snap the
cursor, recompute the rectangle from the fixed opposite corner, and commit
only when both dimensions are positive. -/
def resizeMove (s : CanvasState) (p : ℚ × ℚ) (threshold : ℚ) : CanvasState :=
  match s.resizeHandle, s.selectedAnnId with
  | some handle, some selId =>
      match s.anns.val.find? (fun a => a.id == selId) with
      | none => s
      | some a =>
          let rect := yoloToSvg a s.imageW s.imageH
          let ls := getSnapLines s (some selId)
          let sx := getClosestSnap s.snapPixelDistance p.1 ls.1 threshold
          let sy := getClosestSnap s.snapPixelDistance p.2 ls.2 threshold
          let nr := resizeDims rect handle sx.val sy.val
          let s1 := { s with snapLineX := snapVisual sx, snapLineY := snapVisual sy }
          if 0 < nr.w ∧ 0 < nr.h then
            let g := svgToYolo nr.x nr.y nr.w nr.h s.imageW s.imageH
            commitAnns s1 (s.anns.val.map fun b => if b.id = selId then applyGeom b g else b)
          else s1
  | _, _ => s

/-- The move branch of the main canvas `handleMouseMove`: translate the
gesture-start rectangle by the pointer delta, snap each axis by leading
then trailing edge, and commit the replacement list. -/
def dragMove (s : CanvasState) (p : ℚ × ℚ) (threshold : ℚ) : CanvasState :=
  match s.draggingAnnId, s.initialMoveRect, s.dragStart with
  | some dragId, some ir, some d =>
      let ls := getSnapLines s (some dragId)
      let ax := moveAxis s.snapPixelDistance (ir.x + (p.1 - d.1)) ir.w ls.1 threshold
      let ay := moveAxis s.snapPixelDistance (ir.y + (p.2 - d.2)) ir.h ls.2 threshold
      let g := svgToYolo ax.1 ay.1 ir.w ir.h s.imageW s.imageH
      let updated := s.anns.val.map fun b => if b.id = dragId then applyGeom b g else b
      commitAnns { s with snapLineX := ax.2, snapLineY := ay.2 } updated
  | _, _, _ => s

/-- `handleMouseMove` minus the leading pan branch: draw-creation, resize
and move branches in order, then the trailing guide-line clearing. -/
def moveRest (s : CanvasState) (px py : ℚ) : CanvasState :=
  let p := getMousePos s px py
  let threshold := s.snapPixelDistance / s.zoom
  if s.mode = ToolMode.draw ∧ s.isDragging = true ∧ s.dragStart ≠ none then
    drawCreationMove s p threshold
  else if s.mode = ToolMode.select ∧ s.resizeHandle ≠ none ∧ s.selectedAnnId ≠ none then
    resizeMove s p threshold
  else if s.mode = ToolMode.select ∧ s.draggingAnnId ≠ none ∧
      s.initialMoveRect ≠ none ∧ s.dragStart ≠ none then
    dragMove s p threshold
  else if s.isDragging = false ∧ s.resizeHandle = none ∧ s.draggingAnnId = none then
    { s with snapLineX := none, snapLineY := none }
  else s

/-- `handleMouseMove`: pan tracking first, then the gesture branches. -/
def handleMouseMove (s : CanvasState) (px py : ℚ) : CanvasState :=
  if s.mode = ToolMode.pan ∧ s.isDragging = true ∧ s.dragStart ≠ none then
    match s.dragStart with
    | some d => { s with panX := s.panX + (px - d.1), panY := s.panY + (py - d.2),
                         dragStart := some (px, py) }
    | none => s
  else moveRest s px py

/-- The annotated box appended on a finalized draw: fresh id, the
currently selected label class, and the drawn rectangle converted to
normalized coordinates. -/
def drawNewAnn (c : Rect) (labelId newId : String) (iw ih : ℚ) : BBox :=
  { id := newId, labelId := labelId
  , x := (svgToYolo c.x c.y c.w c.h iw ih).x
  , y := (svgToYolo c.x c.y c.w c.h iw ih).y
  , w := (svgToYolo c.x c.y c.w c.h iw ih).w
  , h := (svgToYolo c.x c.y c.w c.h iw ih).h }

/-- `handleMouseUp` (also bound to mouse-leave): commit the coalesced
history entry if the list was replaced during the gesture, finalize a
sufficiently large draw rectangle, then clear all gesture state.
`newId` stands for the `crypto.randomUUID()` result. -/
def handleMouseUp (s : CanvasState) (newId : String) : CanvasState :=
  let s1 :=
    if s.isHistoryAction then
      if s.anns ≠ s.dragStartAnns then
        { s with undoStack := s.undoStack ++ [s.dragStartAnns.val],
                 redoStack := [],
                 prevAnns := s.anns,
                 isHistoryAction := false }
      else { s with isHistoryAction := false }
    else s
  let s2 :=
    match s1.mode, s1.activeCreation with
    | ToolMode.draw, some c =>
        if 5 < c.w ∧ 5 < c.h then
          commitAnns { s1 with selectedAnnId := some newId }
            (s1.anns.val ++ [drawNewAnn c s1.currentLabelId newId s1.imageW s1.imageH])
        else s1
    | _, _ => s1
  { s2 with isDragging := false, dragStart := none, activeCreation := none,
            draggingAnnId := none, resizeHandle := none, initialMoveRect := none,
            snapLineX := none, snapLineY := none }

/-- `handleAnnotationMouseDown` (pointer-down on a box body, propagation
stopped): select the box and, when found, start a move gesture with the
history flag set. -/
def handleAnnMouseDown (s : CanvasState) (i : String) (px py : ℚ) : CanvasState :=
  if s.mode ≠ ToolMode.select then s
  else
    let s1 := { s with selectedAnnId := some i }
    match s1.anns.val.find? (fun a => a.id == i) with
    | none => s1
    | some a =>
        { s1 with dragStartAnns := s1.anns, isHistoryAction := true,
                  draggingAnnId := some i,
                  initialMoveRect := some (yoloToSvg a s1.imageW s1.imageH),
                  dragStart := some (getMousePos s1 px py) }

/-- `handleResizeMouseDown` (pointer-down on a corner handle, propagation
stopped; the `id` argument of the source is unused by its body): start a
resize gesture with the history flag set. -/
def handleResizeMouseDown (s : CanvasState) (handle : HandleType) : CanvasState :=
  if s.mode ≠ ToolMode.select then s
  else { s with dragStartAnns := s.anns, isHistoryAction := true,
                resizeHandle := some handle, draggingAnnId := none }

/-- `performUndo`: no-op on an empty stack, otherwise restore the top
entry, push the current list onto redo, and replay through the update
callback with the `isUndoRedo` flag set. -/
def performUndo (s : CanvasState) : CanvasState :=
  match s.undoStack.getLast? with
  | none => s
  | some prevState =>
      commitAnns { s with isUndoRedo := true,
                          redoStack := s.redoStack ++ [s.anns.val],
                          undoStack := s.undoStack.dropLast } prevState

/-- `performRedo`: the mirror of `performUndo`. -/
def performRedo (s : CanvasState) : CanvasState :=
  match s.redoStack.getLast? with
  | none => s
  | some nextState =>
      commitAnns { s with isUndoRedo := true,
                          undoStack := s.undoStack ++ [s.anns.val],
                          redoStack := s.redoStack.dropLast } nextState

/-- The host replacing the edited image: new id and a freshly loaded
annotation list, observed by the history effect. -/
def switchImage (s : CanvasState) (newId : String) (na : RevList) : CanvasState :=
  historyEffect { s with imageId := newId, anns := na }

/-- The per-handle rectangle recomputation of the model-manager canvas
resize branch: the controlled corner may not cross within 5 pixels of the
fixed opposite corner, clamping both dimensions to at least 5. -/
def resizeRectModal (rect : Rect) (handle : HandleType) (effX effY : ℚ) : Rect :=
  match handle with
  | HandleType.tl =>
      ⟨min effX (rect.x + rect.w - 5), min effY (rect.y + rect.h - 5),
       rect.x + rect.w - min effX (rect.x + rect.w - 5),
       rect.y + rect.h - min effY (rect.y + rect.h - 5)⟩
  | HandleType.tr =>
      ⟨rect.x, min effY (rect.y + rect.h - 5),
       max (effX - rect.x) 5,
       rect.y + rect.h - min effY (rect.y + rect.h - 5)⟩
  | HandleType.bl =>
      ⟨min effX (rect.x + rect.w - 5), rect.y,
       rect.x + rect.w - min effX (rect.x + rect.w - 5),
       max (effY - rect.y) 5⟩
  | HandleType.br =>
      ⟨rect.x, rect.y, max (effX - rect.x) 5, max (effY - rect.y) 5⟩

/-- Externally visible effects of the model-manager canvas
`handleMouseUp`: at most one list replacement, at most one selection
change, and the rectangle handed to `onMagicBoxSelect`. -/
structure ModalUpEffects where
  annsUpdate : Option (List BBox)
  selectUpdate : Option String
  magicBox : Option Rect
deriving DecidableEq, Repr

/-- The creation-finalizing part of the model-manager canvas
`handleMouseUp`: in `DRAW` mode append a new annotated box; in
`MAGIC_BOX` mode (with a handler wired) hand the rectangle to the
external handler without touching the list. -/
def modalMouseUpEffects (mode : ToolMode) (anns : List BBox)
    (creation : Option Rect) (labelId newId : String) (iw ih : ℚ)
    (hasMagicHandler : Bool) : ModalUpEffects :=
  match creation with
  | none => ⟨none, none, none⟩
  | some c =>
      if 5 < c.w ∧ 5 < c.h then
        if mode = ToolMode.draw then
          ⟨some (anns ++ [drawNewAnn c labelId newId iw ih]), some newId, none⟩
        else if mode = ToolMode.magicBox ∧ hasMagicHandler = true then
          ⟨none, none, some c⟩
        else ⟨none, none, none⟩
      else ⟨none, none, none⟩

/-- The three gesture-starting pointer-down events of the main canvas. -/
inductive GestureStart
  | drawAt (px py : ℚ)
  | moveOn (i : String) (px py : ℚ)
  | resizeOn (handle : HandleType)
deriving DecidableEq, Repr

/-- Dispatch of a gesture-starting pointer-down to its handler. -/
def startGesture (s : CanvasState) : GestureStart → CanvasState
  | GestureStart.drawAt px py => handleMouseDown s px py
  | GestureStart.moveOn i px py => handleAnnMouseDown s i px py
  | GestureStart.resizeOn handle => handleResizeMouseDown s handle

/-- The pointer-down event actually starts its gesture: the tool mode
matches, and for a body-drag the pressed box exists in the list. -/
def gestureStarts (s : CanvasState) : GestureStart → Prop
  | GestureStart.drawAt _ _ => s.mode = ToolMode.draw
  | GestureStart.moveOn i _ _ => s.mode = ToolMode.select ∧
      (s.anns.val.find? (fun a => a.id == i)).isSome = true
  | GestureStart.resizeOn _ => s.mode = ToolMode.select

/-- A sequence of intermediate pointer-move events. -/
def runMoves (s : CanvasState) (ms : List (ℚ × ℚ)) : CanvasState :=
  ms.foldl (fun t p => handleMouseMove t p.1 p.2) s

/-- The data-model invariant: every annotated box has positive size. -/
def InvList (l : List BBox) : Prop :=
  ∀ a ∈ l, 0 < a.w ∧ 0 < a.h

/-- The size invariant over the whole history state: the live list and
every snapshot on either stack. -/
def InvHistory (s : CanvasState) : Prop :=
  InvList s.anns.val ∧ (∀ l ∈ s.undoStack, InvList l) ∧ (∀ l ∈ s.redoStack, InvList l)

/-- Facts that hold right after a gesture-starting pointer-down on a base
state `s0` and are preserved by every intermediate pointer-move event. -/
structure GestureInv (s0 t : CanvasState) : Prop where
  hist : t.isHistoryAction = true
  img : t.imageId = s0.imageId
  pimg : t.prevImageId = s0.imageId
  undo : t.undoStack = s0.undoStack
  redo : t.redoStack = s0.redoStack
  dsa : t.dragStartAnns = s0.anns
  prev : t.prevAnns = s0.anns
  ur : t.isUndoRedo = false
  mode : t.mode = s0.mode
  revge : s0.anns.rev ≤ t.anns.rev
  revchar : t.anns.rev = s0.anns.rev → t.anns = s0.anns
  drawanns : s0.mode = ToolMode.draw → t.anns = s0.anns

/-- A box for concrete runs: pixel rect (40, 40, 20, 20) on a 100×100
image. -/
def exampleBox : BBox :=
  ⟨"a1", "l1", 1/2, 1/2, 1/5, 1/5⟩

/-- A quiescent select-mode state on a 100×100 image holding exactly
`exampleBox`, with snapping disabled and identity view transform. -/
def exampleState : CanvasState :=
  { mode := ToolMode.select
  , imageId := "img1"
  , imageW := 100
  , imageH := 100
  , anns := ⟨0, [exampleBox]⟩
  , selectedAnnId := some "a1"
  , currentLabelId := "l1"
  , zoom := 1
  , panX := 0
  , panY := 0
  , snapPixelDistance := 0
  , isDragging := false
  , dragStart := none
  , activeCreation := none
  , draggingAnnId := none
  , resizeHandle := none
  , initialMoveRect := none
  , snapLineX := none
  , snapLineY := none
  , undoStack := []
  , redoStack := []
  , prevAnns := ⟨0, [exampleBox]⟩
  , prevImageId := "img1"
  , isHistoryAction := false
  , dragStartAnns := ⟨0, [exampleBox]⟩
  , isUndoRedo := false }

/-- The same state in draw mode. -/
def exampleDrawState : CanvasState :=
  { exampleState with mode := ToolMode.draw }

/-- A select-mode drag of `exampleBox` out to (60, 60) and back to
(50, 50) — zero net displacement — finished by pointer-up. -/
def noopDragRun : CanvasState :=
  handleMouseUp
    (handleMouseMove (handleMouseMove (handleAnnMouseDown exampleState "a1" 50 50) 60 60) 50 50)
    "n1"

/-- `exampleBox` translated 10 pixels right and down. -/
def movedBox : BBox :=
  ⟨"a1", "l1", 3/5, 3/5, 1/5, 1/5⟩

/-- The state right after pointer-down on the body of `exampleBox` at
(50, 50). -/
def dragState0 : CanvasState :=
  { exampleState with dragStart := some (50, 50), draggingAnnId := some "a1",
                      initialMoveRect := some ⟨40, 40, 20, 20⟩, isHistoryAction := true }

/-- The drag state after the move event to (60, 60): first replacement of
the list. -/
def dragState1 : CanvasState :=
  { dragState0 with anns := ⟨1, [movedBox]⟩ }

/-- The drag state after moving back to (50, 50): second replacement,
value-equal to the pre-gesture list. -/
def dragState2 : CanvasState :=
  { dragState0 with anns := ⟨2, [exampleBox]⟩ }

/-- The state right after pointer-down on the bottom-right handle of
`exampleBox`. -/
def resizeState0 : CanvasState :=
  { exampleState with resizeHandle := some HandleType.br, isHistoryAction := true }

/-- A resize event on the main canvas: grab the bottom-right handle of
`exampleBox` (pixel rect (40, 40, 20, 20)) and move the pointer to
(42, 42). -/
def smallResizeRun : CanvasState :=
  handleMouseMove (handleResizeMouseDown exampleState HandleType.br) 42 42

/-- A resize event on the main canvas dragging the bottom-right handle to
(35, 35) — left of and above the top-left corner (40, 40). -/
def invertedResizeRun : CanvasState :=
  handleMouseMove (handleResizeMouseDown exampleState HandleType.br) 35 35

end AutoLabel

namespace AutoLabel

theorem snapStep_minD_le (v : ℚ) (acc : SnapAcc) (l : ℚ) :
    (snapStep v acc l).minD ≤ acc.minD := by
  unfold snapStep
  split_ifs with h
  · exact le_of_lt h
  · exact le_rfl

theorem snapFold_minD_le (v : ℚ) (lines : List ℚ) (acc : SnapAcc) :
    (lines.foldl (snapStep v) acc).minD ≤ acc.minD := by
  induction lines generalizing acc with
  | nil => exact le_rfl
  | cons a as ih =>
    simp only [List.foldl_cons]
    exact le_trans (ih (snapStep v acc a)) (snapStep_minD_le v acc a)

theorem snapFold_minD_le_dist (v : ℚ) (lines : List ℚ) (acc : SnapAcc) :
    ∀ l ∈ lines, (lines.foldl (snapStep v) acc).minD ≤ |v - l| := by
  induction lines generalizing acc with
  | nil => intro l hl; simp at hl
  | cons a as ih =>
    intro l hl
    simp only [List.foldl_cons]
    rcases List.mem_cons.mp hl with rfl | hmem
    · refine le_trans (snapFold_minD_le v as _) ?_
      unfold snapStep
      split_ifs with h
      · exact le_rfl
      · exact not_lt.mp h
    · exact ih (snapStep v acc a) l hmem

theorem snapFold_of_none (v : ℚ) (lines : List ℚ) (acc : SnapAcc)
    (h : ∀ l ∈ lines, acc.minD ≤ |v - l|) :
    lines.foldl (snapStep v) acc = acc := by
  induction lines with
  | nil => rfl
  | cons a as ih =>
    have ha : acc.minD ≤ |v - a| := h a (by simp)
    have hstep : snapStep v acc a = acc := by
      unfold snapStep; rw [if_neg (not_lt.mpr ha)]
    simp only [List.foldl_cons, hstep]
    exact ih (fun l hl => h l (by simp [hl]))

theorem snapFold_of_hit (v : ℚ) (lines : List ℚ) (acc : SnapAcc)
    (h : ∃ l ∈ lines, |v - l| < acc.minD) :
    (lines.foldl (snapStep v) acc).snapped = true ∧
    (lines.foldl (snapStep v) acc).minD = |v - (lines.foldl (snapStep v) acc).closest| ∧
    (lines.foldl (snapStep v) acc).minD < acc.minD ∧
    ∃ pre post, lines = pre ++ (lines.foldl (snapStep v) acc).closest :: post ∧
      ∀ l ∈ pre, (lines.foldl (snapStep v) acc).minD < |v - l| := by
  induction lines generalizing acc with
  | nil => simp at h
  | cons a as ih =>
    simp only [List.foldl_cons]
    by_cases hd : |v - a| < acc.minD
    · have hstep : snapStep v acc a = ⟨a, true, |v - a|⟩ := by
        unfold snapStep; rw [if_pos hd]
      rw [hstep]
      by_cases hhit : ∃ l ∈ as, |v - l| < |v - a|
      · obtain ⟨hsn, hmineq, hlt, pre, post, heq, hpre⟩ := ih ⟨a, true, |v - a|⟩ hhit
        refine ⟨hsn, hmineq, lt_trans hlt hd, a :: pre, post,
          by rw [List.cons_append]; exact congrArg (List.cons a) heq, ?_⟩
        intro l hl
        rcases List.mem_cons.mp hl with rfl | hm
        · exact hlt
        · exact hpre l hm
      · push_neg at hhit
        have hfix : as.foldl (snapStep v) ⟨a, true, |v - a|⟩ = ⟨a, true, |v - a|⟩ :=
          snapFold_of_none v as ⟨a, true, |v - a|⟩ (by intro l hl; exact hhit l hl)
        rw [hfix]
        exact ⟨rfl, rfl, hd, [], as, rfl, by simp⟩
    · have hstep : snapStep v acc a = acc := by
        unfold snapStep; rw [if_neg hd]
      rw [hstep]
      have hex : ∃ l ∈ as, |v - l| < acc.minD := by
        obtain ⟨l, hl, hlt⟩ := h
        rcases List.mem_cons.mp hl with rfl | hm
        · exact absurd hlt hd
        · exact ⟨l, hm, hlt⟩
      obtain ⟨hsn, hmineq, hlt, pre, post, heq, hpre⟩ := ih acc hex
      refine ⟨hsn, hmineq, hlt, a :: pre, post,
        by rw [List.cons_append]; exact congrArg (List.cons a) heq, ?_⟩
      intro l hl
      rcases List.mem_cons.mp hl with rfl | hm
      · exact lt_of_lt_of_le hlt (not_lt.mp hd)
      · exact hpre l hm

/-- C5: for every value, candidate sequence and threshold `t` (with the
configured screen distance and `t` agreeing in sign, as at every call
site where `t = SNAP_DIST_PX / zoom` with `zoom > 0`): snapping disabled
returns the value unsnapped; with `t > 0`, no candidate strictly within
`t` (a candidate exactly at distance `t` does not qualify) returns the
value unsnapped; otherwise the result is snapped to the first candidate
in sequence order attaining the minimum distance. -/
theorem getClosestSnap_correct (spx v t : ℚ) (lines : List ℚ)
    (hiff : spx ≤ 0 ↔ t ≤ 0) :
    (t ≤ 0 → getClosestSnap spx v lines t = ⟨v, false⟩) ∧
    (0 < t → (∀ l ∈ lines, t ≤ |v - l|) → getClosestSnap spx v lines t = ⟨v, false⟩) ∧
    (0 < t → (∃ l ∈ lines, |v - l| < t) →
      (getClosestSnap spx v lines t).snapped = true ∧
      |v - (getClosestSnap spx v lines t).val| < t ∧
      (∀ l ∈ lines, |v - (getClosestSnap spx v lines t).val| ≤ |v - l|) ∧
      ∃ pre post, lines = pre ++ (getClosestSnap spx v lines t).val :: post ∧
        ∀ l ∈ pre, |v - (getClosestSnap spx v lines t).val| < |v - l|) := by
  refine ⟨?_, ?_, ?_⟩
  · intro ht
    have hspx : spx ≤ 0 := hiff.mpr ht
    simp [getClosestSnap, hspx]
  · intro ht hall
    have hspx : ¬ spx ≤ 0 := fun hc => absurd (hiff.mp hc) (not_le.mpr ht)
    have hfix : lines.foldl (snapStep v) ⟨v, false, t⟩ = ⟨v, false, t⟩ :=
      snapFold_of_none v lines ⟨v, false, t⟩ (by intro l hl; exact hall l hl)
    simp [getClosestSnap, hspx, getClosestSnapModal, hfix]
  · intro ht hex
    have hspx : ¬ spx ≤ 0 := fun hc => absurd (hiff.mp hc) (not_le.mpr ht)
    have hmain := snapFold_of_hit v lines ⟨v, false, t⟩ hex
    obtain ⟨hsn, hmineq, hlt, pre, post, heq, hpre⟩ := hmain
    have hres : getClosestSnap spx v lines t =
        ⟨(lines.foldl (snapStep v) ⟨v, false, t⟩).closest,
         (lines.foldl (snapStep v) ⟨v, false, t⟩).snapped⟩ := by
      simp [getClosestSnap, hspx, getClosestSnapModal]
    rw [hres]
    refine ⟨hsn, ?_, ?_, pre, post, heq, ?_⟩
    · exact hmineq ▸ hlt
    · intro l hl
      exact le_trans (le_of_eq hmineq.symm) (snapFold_minD_le_dist v lines ⟨v, false, t⟩ l hl)
    · intro l hl
      exact lt_of_le_of_lt (le_of_eq hmineq.symm) (hmineq ▸ hpre l hl)

/-- Witness for C5 at the spec's own test vector: value 5, candidates
`[0, 10, 20]`, threshold 6 snaps to 0. -/
theorem getClosestSnap_correct_witness :
    (getClosestSnap 6 5 [0, 10, 20] 6).snapped = true ∧
    |(5 : ℚ) - (getClosestSnap 6 5 [0, 10, 20] 6).val| < 6 := by
  have h := (getClosestSnap_correct 6 5 6 [0, 10, 20] (by norm_num)).2.2 (by norm_num)
    ⟨0, by simp, by norm_num⟩
  exact ⟨h.1, h.2.1⟩

theorem RevList.ne_of_rev (a b : RevList) (h : a.rev ≠ b.rev) : a ≠ b :=
  fun he => h (he ▸ rfl)

theorem historyEffect_switch (s : CanvasState) (h : s.imageId ≠ s.prevImageId) :
    historyEffect s = { s with undoStack := [], redoStack := [],
                               prevImageId := s.imageId, prevAnns := s.anns } := by
  unfold historyEffect
  rw [if_pos h]

theorem historyEffect_of_historyAction (s : CanvasState)
    (hpid : s.imageId = s.prevImageId) (hha : s.isHistoryAction = true) :
    historyEffect s = s := by
  unfold historyEffect
  rw [if_neg (by simp [hpid])]
  by_cases h : s.anns ≠ s.prevAnns
  · rw [if_pos h, if_pos hha]
  · rw [if_neg h]

theorem historyEffect_push (s : CanvasState)
    (hpid : s.imageId = s.prevImageId) (hne : s.anns ≠ s.prevAnns)
    (hha : s.isHistoryAction = false) (hur : s.isUndoRedo = false) :
    historyEffect s = { s with undoStack := s.undoStack ++ [s.prevAnns.val],
                               redoStack := [], prevAnns := s.anns,
                               isUndoRedo := false } := by
  unfold historyEffect
  rw [if_neg (by simp [hpid]), if_pos hne, if_neg (by simp [hha]), if_pos hur]

theorem historyEffect_replay (s : CanvasState)
    (hpid : s.imageId = s.prevImageId) (hne : s.anns ≠ s.prevAnns)
    (hha : s.isHistoryAction = false) (hur : s.isUndoRedo = true) :
    historyEffect s = { s with prevAnns := s.anns, isUndoRedo := false } := by
  unfold historyEffect
  rw [if_neg (by simp [hpid]), if_pos hne, if_neg (by simp [hha]), if_neg (by simp [hur])]

theorem performUndo_empty (s : CanvasState) (h : s.undoStack = []) : performUndo s = s := by
  unfold performUndo
  rw [h]
  rfl

theorem performRedo_empty (s : CanvasState) (h : s.redoStack = []) : performRedo s = s := by
  unfold performRedo
  rw [h]
  rfl

theorem commitAnns_fields (s : CanvasState) (L : List BBox)
    (hpid : s.prevImageId = s.imageId) (hprev : s.prevAnns = s.anns)
    (hha : s.isHistoryAction = false) (hur : s.isUndoRedo = false) :
    (commitAnns s L).anns = ⟨s.anns.rev + 1, L⟩ ∧
    (commitAnns s L).undoStack = s.undoStack ++ [s.anns.val] ∧
    (commitAnns s L).redoStack = [] ∧
    (commitAnns s L).prevAnns = (commitAnns s L).anns ∧
    (commitAnns s L).prevImageId = s.prevImageId ∧
    (commitAnns s L).imageId = s.imageId ∧
    (commitAnns s L).isHistoryAction = false ∧
    (commitAnns s L).isUndoRedo = false ∧
    (commitAnns s L).mode = s.mode ∧
    (commitAnns s L).selectedAnnId = s.selectedAnnId := by
  have hne : ({ s with anns := (⟨s.anns.rev + 1, L⟩ : RevList) } : CanvasState).anns ≠
      ({ s with anns := (⟨s.anns.rev + 1, L⟩ : RevList) } : CanvasState).prevAnns := by
    refine RevList.ne_of_rev _ _ ?_
    show s.anns.rev + 1 ≠ s.prevAnns.rev
    rw [hprev]
    exact Nat.succ_ne_self _
  have heq : commitAnns s L =
      { s with anns := ⟨s.anns.rev + 1, L⟩,
               undoStack := s.undoStack ++ [s.prevAnns.val], redoStack := [],
               prevAnns := ⟨s.anns.rev + 1, L⟩, isUndoRedo := false } :=
    historyEffect_push { s with anns := ⟨s.anns.rev + 1, L⟩ } hpid.symm hne hha hur
  rw [heq, hprev]
  exact ⟨rfl, rfl, rfl, rfl, rfl, rfl, hha, rfl, rfl, rfl⟩

theorem performUndo_pop (s : CanvasState) (u : List BBox) (rest : List (List BBox))
    (hpid : s.prevImageId = s.imageId) (hprev : s.prevAnns = s.anns)
    (hha : s.isHistoryAction = false) (h : s.undoStack = rest ++ [u]) :
    (performUndo s).anns.val = u ∧
    (performUndo s).undoStack = rest ∧
    (performUndo s).redoStack = s.redoStack ++ [s.anns.val] ∧
    (performUndo s).prevAnns = (performUndo s).anns ∧
    (performUndo s).prevImageId = s.prevImageId ∧
    (performUndo s).imageId = s.imageId ∧
    (performUndo s).isHistoryAction = false ∧
    (performUndo s).isUndoRedo = false := by
  have hlast : s.undoStack.getLast? = some u := by
    rw [h]; exact List.getLast?_concat _
  have hred : performUndo s =
      commitAnns
        { s with isUndoRedo := true,
                 redoStack := s.redoStack ++ [s.anns.val],
                 undoStack := s.undoStack.dropLast }
        u := by
    unfold performUndo
    rw [hlast]
  have hne : ∀ t : RevList, t.rev = s.anns.rev + 1 → t ≠
      ({ s with isUndoRedo := true, redoStack := s.redoStack ++ [s.anns.val],
                undoStack := s.undoStack.dropLast } : CanvasState).prevAnns := by
    intro t ht
    refine RevList.ne_of_rev _ _ ?_
    show t.rev ≠ s.prevAnns.rev
    rw [ht, hprev]
    exact Nat.succ_ne_self _
  have heq :
      commitAnns
        { s with isUndoRedo := true,
                 redoStack := s.redoStack ++ [s.anns.val],
                 undoStack := s.undoStack.dropLast }
        u =
      { s with isUndoRedo := false, redoStack := s.redoStack ++ [s.anns.val],
               undoStack := s.undoStack.dropLast,
               anns := ⟨s.anns.rev + 1, u⟩, prevAnns := ⟨s.anns.rev + 1, u⟩ } :=
    historyEffect_replay _ hpid.symm (hne _ rfl) hha rfl
  rw [hred, heq, h, List.dropLast_concat]
  exact ⟨rfl, rfl, rfl, rfl, rfl, rfl, hha, rfl⟩

theorem performRedo_pop (s : CanvasState) (r : List BBox) (rest : List (List BBox))
    (hpid : s.prevImageId = s.imageId) (hprev : s.prevAnns = s.anns)
    (hha : s.isHistoryAction = false) (h : s.redoStack = rest ++ [r]) :
    (performRedo s).anns.val = r ∧
    (performRedo s).redoStack = rest ∧
    (performRedo s).undoStack = s.undoStack ++ [s.anns.val] ∧
    (performRedo s).prevAnns = (performRedo s).anns ∧
    (performRedo s).prevImageId = s.prevImageId ∧
    (performRedo s).imageId = s.imageId ∧
    (performRedo s).isHistoryAction = false ∧
    (performRedo s).isUndoRedo = false := by
  have hlast : s.redoStack.getLast? = some r := by
    rw [h]; exact List.getLast?_concat _
  have hred : performRedo s =
      commitAnns
        { s with isUndoRedo := true,
                 undoStack := s.undoStack ++ [s.anns.val],
                 redoStack := s.redoStack.dropLast }
        r := by
    unfold performRedo
    rw [hlast]
  have hne : ∀ t : RevList, t.rev = s.anns.rev + 1 → t ≠
      ({ s with isUndoRedo := true, undoStack := s.undoStack ++ [s.anns.val],
                redoStack := s.redoStack.dropLast } : CanvasState).prevAnns := by
    intro t ht
    refine RevList.ne_of_rev _ _ ?_
    show t.rev ≠ s.prevAnns.rev
    rw [ht, hprev]
    exact Nat.succ_ne_self _
  have heq :
      commitAnns
        { s with isUndoRedo := true,
                 undoStack := s.undoStack ++ [s.anns.val],
                 redoStack := s.redoStack.dropLast }
        r =
      { s with isUndoRedo := false, undoStack := s.undoStack ++ [s.anns.val],
               redoStack := s.redoStack.dropLast,
               anns := ⟨s.anns.rev + 1, r⟩, prevAnns := ⟨s.anns.rev + 1, r⟩ } :=
    historyEffect_replay _ hpid.symm (hne _ rfl) hha rfl
  rw [hred, heq, h, List.dropLast_concat]
  exact ⟨rfl, rfl, rfl, rfl, rfl, rfl, hha, rfl⟩

/-- C4: `undo()` is a no-op on an empty stack and otherwise pops the top
snapshot, pushes the current list onto redo and restores the popped list;
`redo()` is the mirror; after one committed change, `undo()` restores the
exact pre-change list and a subsequent `redo()` the exact post-change
list. -/
theorem undo_redo_correct (s : CanvasState) (L : List BBox)
    (hprev : s.prevAnns = s.anns) (hpid : s.prevImageId = s.imageId)
    (hha : s.isHistoryAction = false) (hur : s.isUndoRedo = false) :
    (s.undoStack = [] → performUndo s = s) ∧
    (s.redoStack = [] → performRedo s = s) ∧
    (∀ u rest, s.undoStack = rest ++ [u] →
        (performUndo s).anns.val = u ∧
        (performUndo s).undoStack = rest ∧
        (performUndo s).redoStack = s.redoStack ++ [s.anns.val]) ∧
    (∀ r rest, s.redoStack = rest ++ [r] →
        (performRedo s).anns.val = r ∧
        (performRedo s).redoStack = rest ∧
        (performRedo s).undoStack = s.undoStack ++ [s.anns.val]) ∧
    (performUndo (commitAnns s L)).anns.val = s.anns.val ∧
    (performRedo (performUndo (commitAnns s L))).anns.val = L := by
  refine ⟨performUndo_empty s, performRedo_empty s, ?_, ?_, ?_⟩
  · intro u rest hu
    obtain ⟨h1, h2, h3, _⟩ := performUndo_pop s u rest hpid hprev hha hu
    exact ⟨h1, h2, h3⟩
  · intro r rest hr
    obtain ⟨h1, h2, h3, _⟩ := performRedo_pop s r rest hpid hprev hha hr
    exact ⟨h1, h2, h3⟩
  · obtain ⟨hcA, hcU, hcR, hcP, hcPI, hcI, hcHA, hcUR, _, _⟩ := commitAnns_fields s L hpid hprev hha hur
    obtain ⟨hu1, hu2, hu3, hu4, hu5, hu6, hu7, hu8⟩ :=
      performUndo_pop (commitAnns s L) s.anns.val s.undoStack
        (by rw [hcPI, hcI, hpid]) hcP hcHA hcU
    refine ⟨hu1, ?_⟩
    have hr3 : (performUndo (commitAnns s L)).redoStack = [] ++ [L] := by
      rw [hu3, hcR, hcA]
    obtain ⟨hr1, _⟩ :=
      performRedo_pop (performUndo (commitAnns s L)) L []
        (by rw [hu5, hcPI, hu6, hcI]; exact hpid) hu4 hu7 hr3
    exact hr1

/-- Witness for C4: on the quiescent example state, undo with an empty
stack is a no-op, and an external commit of the empty list is inverted by
`undo()` and re-applied by `redo()`. -/
theorem undo_redo_correct_witness :
    performUndo exampleState = exampleState ∧
    (performUndo (commitAnns exampleState [])).anns.val = exampleState.anns.val ∧
    (performRedo (performUndo (commitAnns exampleState []))).anns.val = [] := by
  have h := undo_redo_correct exampleState [] rfl rfl rfl rfl
  exact ⟨h.1 rfl, h.2.2.2.2.1, h.2.2.2.2.2⟩

/-- C8: switching the edited image to a different id empties both stacks,
and an immediately following `undo()` or `redo()` is a no-op. -/
theorem switch_image_clears_history (s : CanvasState) (newId : String) (na : RevList)
    (h : newId ≠ s.prevImageId) :
    (switchImage s newId na).undoStack = [] ∧
    (switchImage s newId na).redoStack = [] ∧
    performUndo (switchImage s newId na) = switchImage s newId na ∧
    performRedo (switchImage s newId na) = switchImage s newId na := by
  have heq : switchImage s newId na =
      { s with imageId := newId, anns := na, undoStack := [], redoStack := [],
               prevImageId := newId, prevAnns := na } :=
    historyEffect_switch { s with imageId := newId, anns := na } h
  refine ⟨by rw [heq], by rw [heq], ?_, ?_⟩
  · exact performUndo_empty _ (by rw [heq])
  · exact performRedo_empty _ (by rw [heq])

/-- Witness for C8: switching the example session to a fresh image id
leaves an empty undo stack and a no-op `undo()`. -/
theorem switch_image_clears_history_witness :
    (switchImage exampleState "img2" ⟨5, []⟩).undoStack = [] ∧
    performUndo (switchImage exampleState "img2" ⟨5, []⟩) =
      switchImage exampleState "img2" ⟨5, []⟩ := by
  have h := switch_image_clears_history exampleState "img2" ⟨5, []⟩ (by decide)
  exact ⟨h.1, h.2.2.1⟩

theorem GestureInv.ofEq (s0 t t' : CanvasState) (hinv : GestureInv s0 t)
    (h1 : t'.isHistoryAction = t.isHistoryAction)
    (h2 : t'.imageId = t.imageId) (h3 : t'.prevImageId = t.prevImageId)
    (h4 : t'.undoStack = t.undoStack) (h5 : t'.redoStack = t.redoStack)
    (h6 : t'.dragStartAnns = t.dragStartAnns) (h7 : t'.prevAnns = t.prevAnns)
    (h8 : t'.isUndoRedo = t.isUndoRedo) (h9 : t'.mode = t.mode)
    (h10 : t'.anns = t.anns) : GestureInv s0 t' := by
  refine ⟨?_, ?_, ?_, ?_, ?_, ?_, ?_, ?_, ?_, ?_, ?_, ?_⟩
  · rw [h1]; exact hinv.hist
  · rw [h2]; exact hinv.img
  · rw [h3]; exact hinv.pimg
  · rw [h4]; exact hinv.undo
  · rw [h5]; exact hinv.redo
  · rw [h6]; exact hinv.dsa
  · rw [h7]; exact hinv.prev
  · rw [h8]; exact hinv.ur
  · rw [h9]; exact hinv.mode
  · rw [h10]; exact hinv.revge
  · intro h; rw [h10]; exact hinv.revchar (by rw [← h10]; exact h)
  · intro h; rw [h10]; exact hinv.drawanns h

theorem commitAnns_gestureInv (s0 t : CanvasState) (l : List BBox)
    (hinv : GestureInv s0 t) (hmode : s0.mode ≠ ToolMode.draw) :
    GestureInv s0 (commitAnns t l) := by
  have heq : commitAnns t l = { t with anns := ⟨t.anns.rev + 1, l⟩ } :=
    historyEffect_of_historyAction { t with anns := ⟨t.anns.rev + 1, l⟩ }
      (hinv.img.trans hinv.pimg.symm) hinv.hist
  rw [heq]
  refine ⟨hinv.hist, hinv.img, hinv.pimg, hinv.undo, hinv.redo, hinv.dsa, hinv.prev,
    hinv.ur, hinv.mode, ?_, ?_, ?_⟩
  · exact le_trans hinv.revge (Nat.le_succ _)
  · intro h
    have h' : t.anns.rev + 1 = s0.anns.rev := h
    have := hinv.revge
    omega
  · intro h
    exact absurd h hmode

theorem drawCreationMove_gestureInv (s0 t : CanvasState) (p : ℚ × ℚ) (th : ℚ)
    (hinv : GestureInv s0 t) : GestureInv s0 (drawCreationMove t p th) := by
  unfold drawCreationMove
  split
  · exact hinv
  · exact GestureInv.ofEq s0 t _ hinv rfl rfl rfl rfl rfl rfl rfl rfl rfl rfl

theorem resizeMove_gestureInv (s0 t : CanvasState) (p : ℚ × ℚ) (th : ℚ)
    (hinv : GestureInv s0 t) (hmode : s0.mode ≠ ToolMode.draw) :
    GestureInv s0 (resizeMove t p th) := by
  unfold resizeMove
  split
  · split
    · exact hinv
    · dsimp only
      split_ifs with h
      · refine commitAnns_gestureInv s0 _ _ ?_ hmode
        exact GestureInv.ofEq s0 t _ hinv rfl rfl rfl rfl rfl rfl rfl rfl rfl rfl
      · exact GestureInv.ofEq s0 t _ hinv rfl rfl rfl rfl rfl rfl rfl rfl rfl rfl
  · exact hinv

theorem dragMove_gestureInv (s0 t : CanvasState) (p : ℚ × ℚ) (th : ℚ)
    (hinv : GestureInv s0 t) (hmode : s0.mode ≠ ToolMode.draw) :
    GestureInv s0 (dragMove t p th) := by
  unfold dragMove
  split
  · refine commitAnns_gestureInv s0 _ _ ?_ hmode
    exact GestureInv.ofEq s0 t _ hinv rfl rfl rfl rfl rfl rfl rfl rfl rfl rfl
  · exact hinv

theorem moveRest_gestureInv (s0 t : CanvasState) (px py : ℚ)
    (hinv : GestureInv s0 t) : GestureInv s0 (moveRest t px py) := by
  unfold moveRest
  split_ifs with h1 h2 h3 h4
  · exact drawCreationMove_gestureInv s0 t _ _ hinv
  · refine resizeMove_gestureInv s0 t _ _ hinv ?_
    have hsel : s0.mode = ToolMode.select := hinv.mode.symm.trans h2.1
    rw [hsel]; decide
  · refine dragMove_gestureInv s0 t _ _ hinv ?_
    have hsel : s0.mode = ToolMode.select := hinv.mode.symm.trans h3.1
    rw [hsel]; decide
  · exact GestureInv.ofEq s0 t _ hinv rfl rfl rfl rfl rfl rfl rfl rfl rfl rfl
  · exact hinv

theorem handleMouseMove_gestureInv (s0 t : CanvasState) (px py : ℚ)
    (hinv : GestureInv s0 t) : GestureInv s0 (handleMouseMove t px py) := by
  unfold handleMouseMove
  split_ifs with h1
  · split
    · exact GestureInv.ofEq s0 t _ hinv rfl rfl rfl rfl rfl rfl rfl rfl rfl rfl
    · exact hinv
  · exact moveRest_gestureInv s0 t px py hinv

theorem runMoves_gestureInv (s0 t : CanvasState) (ms : List (ℚ × ℚ))
    (hinv : GestureInv s0 t) : GestureInv s0 (runMoves t ms) := by
  induction ms generalizing t with
  | nil => exact hinv
  | cons m rest ih =>
      exact ih (handleMouseMove t m.1 m.2) (handleMouseMove_gestureInv s0 t m.1 m.2 hinv)

theorem startGesture_gestureInv (s : CanvasState) (g : GestureStart)
    (hprev : s.prevAnns = s.anns) (hpid : s.prevImageId = s.imageId)
    (hur : s.isUndoRedo = false) (hg : gestureStarts s g) :
    GestureInv s (startGesture s g) := by
  cases g with
  | drawAt px py =>
      have hmode : s.mode = ToolMode.draw := hg
      have hEq : startGesture s (GestureStart.drawAt px py) =
          { s with dragStartAnns := s.anns, isHistoryAction := true,
                   isDragging := true,
                   activeCreation := some ⟨(getMousePos s px py).1, (getMousePos s px py).2, 0, 0⟩,
                   dragStart := some (getMousePos s px py), selectedAnnId := none } := by
        show handleMouseDown s px py = _
        unfold handleMouseDown
        rw [if_pos (Or.inl hmode)]
        dsimp only
        rw [if_neg (by rw [hmode]; decide), if_pos (Or.inl hmode)]
      rw [hEq]
      exact ⟨rfl, rfl, hpid, rfl, rfl, rfl, hprev, hur, rfl, le_rfl, fun _ => rfl, fun _ => rfl⟩
  | moveOn i px py =>
      obtain ⟨hmode, hfind⟩ := hg
      obtain ⟨a, ha⟩ := Option.isSome_iff_exists.mp hfind
      have hEq : startGesture s (GestureStart.moveOn i px py) =
          { s with selectedAnnId := some i, dragStartAnns := s.anns, isHistoryAction := true,
                   draggingAnnId := some i,
                   initialMoveRect := some (yoloToSvg a s.imageW s.imageH),
                   dragStart := some (getMousePos { s with selectedAnnId := some i } px py) } := by
        show handleAnnMouseDown s i px py = _
        unfold handleAnnMouseDown
        rw [if_neg (by rw [hmode]; decide)]
        dsimp only
        rw [ha]
      rw [hEq]
      exact ⟨rfl, rfl, hpid, rfl, rfl, rfl, hprev, hur, rfl, le_rfl, fun _ => rfl, fun _ => rfl⟩
  | resizeOn handle =>
      have hmode : s.mode = ToolMode.select := hg
      have hEq : startGesture s (GestureStart.resizeOn handle) =
          { s with dragStartAnns := s.anns, isHistoryAction := true,
                   resizeHandle := some handle, draggingAnnId := none } := by
        show handleResizeMouseDown s handle = _
        unfold handleResizeMouseDown
        rw [if_neg (by rw [hmode]; decide)]
      rw [hEq]
      exact ⟨rfl, rfl, hpid, rfl, rfl, rfl, hprev, hur, rfl, le_rfl, fun _ => rfl, fun _ => rfl⟩

theorem handleMouseUp_noFinalize (t : CanvasState) (newId : String)
    (heq : t.anns = t.dragStartAnns)
    (hnf : ∀ c, t.mode = ToolMode.draw → t.activeCreation = some c → ¬(5 < c.w ∧ 5 < c.h)) :
    (handleMouseUp t newId).undoStack = t.undoStack ∧
    (handleMouseUp t newId).redoStack = t.redoStack ∧
    (handleMouseUp t newId).anns = t.anns ∧
    (handleMouseUp t newId).selectedAnnId = t.selectedAnnId := by
  unfold handleMouseUp
  by_cases hha : t.isHistoryAction = true
  · rw [if_pos hha, if_neg (show ¬ t.anns ≠ t.dragStartAnns from fun hcon => hcon heq)]
    dsimp only
    split
    · next c hm hc =>
        rw [if_neg (hnf c hm hc)]
        exact ⟨rfl, rfl, rfl, rfl⟩
    · exact ⟨rfl, rfl, rfl, rfl⟩
  · rw [if_neg hha]
    dsimp only
    split
    · next c hm hc =>
        rw [if_neg (hnf c hm hc)]
        exact ⟨rfl, rfl, rfl, rfl⟩
    · exact ⟨rfl, rfl, rfl, rfl⟩

theorem handleMouseUp_of_ne (t : CanvasState) (newId : String)
    (hha : t.isHistoryAction = true) (hne : t.anns ≠ t.dragStartAnns)
    (hmode : t.mode ≠ ToolMode.draw) :
    (handleMouseUp t newId).undoStack = t.undoStack ++ [t.dragStartAnns.val] ∧
    (handleMouseUp t newId).redoStack = [] ∧
    (handleMouseUp t newId).anns = t.anns := by
  unfold handleMouseUp
  rw [if_pos hha, if_pos hne]
  dsimp only
  split
  · next c hm hc => exact absurd hm hmode
  · exact ⟨rfl, rfl, rfl⟩

theorem handleMouseUp_finalize (t : CanvasState) (newId : String) (c : Rect)
    (hmode : t.mode = ToolMode.draw) (hac : t.activeCreation = some c)
    (heq : t.anns = t.dragStartAnns) (hprev : t.prevAnns = t.anns)
    (hpid : t.prevImageId = t.imageId) (hur : t.isUndoRedo = false)
    (hbig : 5 < c.w ∧ 5 < c.h) :
    (handleMouseUp t newId).anns.val =
      t.anns.val ++ [drawNewAnn c t.currentLabelId newId t.imageW t.imageH] ∧
    (handleMouseUp t newId).anns.rev = t.anns.rev + 1 ∧
    (handleMouseUp t newId).selectedAnnId = some newId ∧
    (handleMouseUp t newId).undoStack = t.undoStack ++ [t.anns.val] ∧
    (handleMouseUp t newId).redoStack = [] := by
  by_cases hha : t.isHistoryAction = true
  · have hred : handleMouseUp t newId =
        { commitAnns { t with isHistoryAction := false, selectedAnnId := some newId }
            (t.anns.val ++ [drawNewAnn c t.currentLabelId newId t.imageW t.imageH]) with
          isDragging := false, dragStart := none, activeCreation := none,
          draggingAnnId := none, resizeHandle := none, initialMoveRect := none,
          snapLineX := none, snapLineY := none } := by
      unfold handleMouseUp
      rw [if_pos hha, if_neg (show ¬ t.anns ≠ t.dragStartAnns from fun hcon => hcon heq)]
      dsimp only
      rw [hmode, hac]
      dsimp only
      rw [if_pos hbig]
    obtain ⟨hcA, hcU, hcR, _, _, _, _, _, _, hcS⟩ :=
      commitAnns_fields { t with isHistoryAction := false, selectedAnnId := some newId }
        (t.anns.val ++ [drawNewAnn c t.currentLabelId newId t.imageW t.imageH])
        hpid hprev rfl hur
    rw [hred]
    exact ⟨by rw [show ({ commitAnns { t with isHistoryAction := false, selectedAnnId := some newId } (t.anns.val ++ [drawNewAnn c t.currentLabelId newId t.imageW t.imageH]) with isDragging := false, dragStart := none, activeCreation := none, draggingAnnId := none, resizeHandle := none, initialMoveRect := none, snapLineX := none, snapLineY := none } : CanvasState).anns = (commitAnns { t with isHistoryAction := false, selectedAnnId := some newId } (t.anns.val ++ [drawNewAnn c t.currentLabelId newId t.imageW t.imageH])).anns from rfl, hcA],
      by rw [show ({ commitAnns { t with isHistoryAction := false, selectedAnnId := some newId } (t.anns.val ++ [drawNewAnn c t.currentLabelId newId t.imageW t.imageH]) with isDragging := false, dragStart := none, activeCreation := none, draggingAnnId := none, resizeHandle := none, initialMoveRect := none, snapLineX := none, snapLineY := none } : CanvasState).anns = (commitAnns { t with isHistoryAction := false, selectedAnnId := some newId } (t.anns.val ++ [drawNewAnn c t.currentLabelId newId t.imageW t.imageH])).anns from rfl, hcA],
      hcS, hcU, hcR⟩
  · have hred : handleMouseUp t newId =
        { commitAnns { t with selectedAnnId := some newId }
            (t.anns.val ++ [drawNewAnn c t.currentLabelId newId t.imageW t.imageH]) with
          isDragging := false, dragStart := none, activeCreation := none,
          draggingAnnId := none, resizeHandle := none, initialMoveRect := none,
          snapLineX := none, snapLineY := none } := by
      unfold handleMouseUp
      rw [if_neg hha]
      dsimp only
      rw [hmode, hac]
      dsimp only
      rw [if_pos hbig]
    have hha' : t.isHistoryAction = false := by
      cases h : t.isHistoryAction
      · rfl
      · exact absurd h hha
    obtain ⟨hcA, hcU, hcR, _, _, _, _, _, _, hcS⟩ :=
      commitAnns_fields { t with selectedAnnId := some newId }
        (t.anns.val ++ [drawNewAnn c t.currentLabelId newId t.imageW t.imageH])
        hpid hprev hha' hur
    rw [hred]
    exact ⟨by rw [show ({ commitAnns { t with selectedAnnId := some newId } (t.anns.val ++ [drawNewAnn c t.currentLabelId newId t.imageW t.imageH]) with isDragging := false, dragStart := none, activeCreation := none, draggingAnnId := none, resizeHandle := none, initialMoveRect := none, snapLineX := none, snapLineY := none } : CanvasState).anns = (commitAnns { t with selectedAnnId := some newId } (t.anns.val ++ [drawNewAnn c t.currentLabelId newId t.imageW t.imageH])).anns from rfl, hcA],
      by rw [show ({ commitAnns { t with selectedAnnId := some newId } (t.anns.val ++ [drawNewAnn c t.currentLabelId newId t.imageW t.imageH]) with isDragging := false, dragStart := none, activeCreation := none, draggingAnnId := none, resizeHandle := none, initialMoveRect := none, snapLineX := none, snapLineY := none } : CanvasState).anns = (commitAnns { t with selectedAnnId := some newId } (t.anns.val ++ [drawNewAnn c t.currentLabelId newId t.imageW t.imageH])).anns from rfl, hcA],
      hcS, hcU, hcR⟩

end AutoLabel

namespace AutoLabel

theorem handleMouseUp_of_gestureInv (s0 t : CanvasState) (newId : String)
    (hinv : GestureInv s0 t) :
    ((handleMouseUp t newId).undoStack = s0.undoStack ∧
     (handleMouseUp t newId).redoStack = s0.redoStack ∧
     (handleMouseUp t newId).anns.rev = s0.anns.rev) ∨
    ((handleMouseUp t newId).undoStack = s0.undoStack ++ [s0.anns.val] ∧
     (handleMouseUp t newId).redoStack = []) := by
  by_cases hmode : t.mode = ToolMode.draw
  · have hanns : t.anns = s0.anns := hinv.drawanns (hinv.mode.symm.trans hmode)
    have heqd : t.anns = t.dragStartAnns := by rw [hanns, hinv.dsa]
    cases hac : t.activeCreation with
    | none =>
        left
        obtain ⟨h1, h2, h3, _⟩ := handleMouseUp_noFinalize t newId heqd
          (fun c _ hc => by rw [hac] at hc; exact Option.noConfusion hc)
        exact ⟨by rw [h1, hinv.undo], by rw [h2, hinv.redo], by rw [h3, hanns]⟩
    | some c =>
        by_cases hbig : 5 < c.w ∧ 5 < c.h
        · right
          obtain ⟨_, _, _, h4, h5⟩ := handleMouseUp_finalize t newId c hmode hac heqd
            (hinv.prev.trans hanns.symm) (hinv.pimg.trans hinv.img.symm) hinv.ur hbig
          exact ⟨by rw [h4, hinv.undo, hanns], h5⟩
        · left
          obtain ⟨h1, h2, h3, _⟩ := handleMouseUp_noFinalize t newId heqd
            (fun c' _ hc' => by
              rw [hac] at hc'
              injection hc' with hcc
              rw [← hcc]
              exact hbig)
          exact ⟨by rw [h1, hinv.undo], by rw [h2, hinv.redo], by rw [h3, hanns]⟩
  · by_cases hne : t.anns = t.dragStartAnns
    · left
      obtain ⟨h1, h2, h3, _⟩ := handleMouseUp_noFinalize t newId hne
        (fun c hm _ => absurd hm hmode)
      have hta : t.anns = s0.anns := hne.trans hinv.dsa
      exact ⟨by rw [h1, hinv.undo], by rw [h2, hinv.redo], by rw [h3, hta]⟩
    · right
      obtain ⟨h1, h2, _⟩ := handleMouseUp_of_ne t newId hinv.hist hne hmode
      exact ⟨by rw [h1, hinv.undo, hinv.dsa], h2⟩

/-- C1: a create, move or resize gesture — one pointer-down, any number
of intermediate pointer-move events, one pointer-up — pushes at most one
entry onto the undo stack; no intermediate pointer-move pushes anything;
and if the annotation list was replaced during the gesture (its revision
changed), exactly one entry holding the pre-gesture snapshot is pushed
and the redo stack is cleared. -/
theorem gesture_pushes_at_most_one_entry (s : CanvasState) (g : GestureStart)
    (ms : List (ℚ × ℚ)) (newId : String)
    (hprev : s.prevAnns = s.anns) (hpid : s.prevImageId = s.imageId)
    (hur : s.isUndoRedo = false) (hg : gestureStarts s g) :
    (∀ k, (runMoves (startGesture s g) (ms.take k)).undoStack = s.undoStack) ∧
    ((handleMouseUp (runMoves (startGesture s g) ms) newId).undoStack = s.undoStack ∨
      ((handleMouseUp (runMoves (startGesture s g) ms) newId).undoStack
          = s.undoStack ++ [s.anns.val] ∧
       (handleMouseUp (runMoves (startGesture s g) ms) newId).redoStack = [])) ∧
    ((handleMouseUp (runMoves (startGesture s g) ms) newId).anns.rev ≠ s.anns.rev →
      (handleMouseUp (runMoves (startGesture s g) ms) newId).undoStack
          = s.undoStack ++ [s.anns.val] ∧
      (handleMouseUp (runMoves (startGesture s g) ms) newId).redoStack = []) := by
  have hstart := startGesture_gestureInv s g hprev hpid hur hg
  have hrun := runMoves_gestureInv s _ ms hstart
  have hk : ∀ k, (runMoves (startGesture s g) (ms.take k)).undoStack = s.undoStack :=
    fun k => (runMoves_gestureInv s _ (ms.take k) hstart).undo
  rcases handleMouseUp_of_gestureInv s _ newId hrun with ⟨h1, _, h3⟩ | ⟨h1, h2⟩
  · exact ⟨hk, Or.inl h1, fun hcon => absurd h3 hcon⟩
  · exact ⟨hk, Or.inr ⟨h1, h2⟩, fun _ => ⟨h1, h2⟩⟩

/-- Witness for C1: a one-move select drag on the example state pushes at
most one entry. -/
theorem gesture_pushes_at_most_one_entry_witness :
    (handleMouseUp (runMoves (startGesture exampleState (GestureStart.moveOn "a1" 50 50))
        [(60, 60)]) "n1").undoStack = exampleState.undoStack ∨
    ((handleMouseUp (runMoves (startGesture exampleState (GestureStart.moveOn "a1" 50 50))
        [(60, 60)]) "n1").undoStack = exampleState.undoStack ++ [exampleState.anns.val] ∧
     (handleMouseUp (runMoves (startGesture exampleState (GestureStart.moveOn "a1" 50 50))
        [(60, 60)]) "n1").redoStack = []) :=
  (gesture_pushes_at_most_one_entry exampleState (GestureStart.moveOn "a1" 50 50)
    [(60, 60)] "n1" rfl rfl rfl ⟨rfl, by decide⟩).2.1

/-- C3 counterexample: a select-mode drag whose final annotation-list
geometry is value-equal to the pre-gesture geometry (pointer moved out and
back, zero net displacement) still pushes one entry onto the undo stack,
because the pointer-up comparison is by reference identity and every
intermediate move event replaced the list. -/
theorem noop_drag_pushes_entry :
    noopDragRun.anns.val = exampleState.anns.val ∧
    noopDragRun.undoStack = [[exampleBox]] := by
  have h1 : handleAnnMouseDown exampleState "a1" 50 50 = dragState0 := by
    norm_num [handleAnnMouseDown, exampleState, exampleBox, dragState0, getMousePos,
      yoloToSvg, List.find?, Option.some_ne_none]
  have h2 : handleMouseMove dragState0 60 60 = dragState1 := by
    norm_num [handleMouseMove, moveRest, dragMove, dragState0, dragState1, exampleState,
      exampleBox, movedBox, getMousePos, getSnapLines, moveAxis, getClosestSnap,
      getClosestSnapModal, snapStep, snapVisual, yoloToSvg, svgToYolo, applyGeom,
      commitAnns, historyEffect, Option.some_ne_none]
  have h3 : handleMouseMove dragState1 50 50 = dragState2 := by
    norm_num [handleMouseMove, moveRest, dragMove, dragState0, dragState1, dragState2,
      exampleState, exampleBox, movedBox, getMousePos, getSnapLines, moveAxis,
      getClosestSnap, getClosestSnapModal, snapStep, snapVisual, yoloToSvg, svgToYolo,
      applyGeom, commitAnns, historyEffect, Option.some_ne_none]
  have h4 : (handleMouseUp dragState2 "n1").anns.val = [exampleBox] ∧
      (handleMouseUp dragState2 "n1").undoStack = [[exampleBox]] := by
    norm_num [handleMouseUp, dragState2, dragState0, exampleState, exampleBox,
      commitAnns, historyEffect, Option.some_ne_none]
  show (handleMouseUp (handleMouseMove (handleMouseMove
      (handleAnnMouseDown exampleState "a1" 50 50) 60 60) 50 50) "n1").anns.val
        = exampleState.anns.val ∧ _
  rw [h1, h2, h3]
  exact ⟨h4.1, h4.2⟩

/-- C3 amended: pointer-up pushes an entry iff the annotation list was
replaced during the drag (its revision changed) — value equality of the
final and initial geometry is not consulted; a drag without any committing
move event pushes nothing, and a push stores the pre-gesture snapshot and
clears the redo stack. -/
theorem select_drag_push_iff_replaced (s : CanvasState) (i : String) (dpx dpy : ℚ)
    (ms : List (ℚ × ℚ)) (newId : String)
    (hprev : s.prevAnns = s.anns) (hpid : s.prevImageId = s.imageId)
    (hur : s.isUndoRedo = false) (hmode : s.mode = ToolMode.select)
    (hfind : (s.anns.val.find? (fun a => a.id == i)).isSome = true) :
    ((runMoves (startGesture s (GestureStart.moveOn i dpx dpy)) ms).anns.rev = s.anns.rev →
      (handleMouseUp (runMoves (startGesture s (GestureStart.moveOn i dpx dpy)) ms)
          newId).undoStack = s.undoStack) ∧
    ((runMoves (startGesture s (GestureStart.moveOn i dpx dpy)) ms).anns.rev ≠ s.anns.rev →
      (handleMouseUp (runMoves (startGesture s (GestureStart.moveOn i dpx dpy)) ms)
          newId).undoStack = s.undoStack ++ [s.anns.val] ∧
      (handleMouseUp (runMoves (startGesture s (GestureStart.moveOn i dpx dpy)) ms)
          newId).redoStack = []) := by
  have hstart := startGesture_gestureInv s (GestureStart.moveOn i dpx dpy) hprev hpid hur
    ⟨hmode, hfind⟩
  have hrun := runMoves_gestureInv s _ ms hstart
  have hmod : (runMoves (startGesture s (GestureStart.moveOn i dpx dpy)) ms).mode
      ≠ ToolMode.draw := by
    rw [hrun.mode, hmode]; decide
  constructor
  · intro hrev
    have heqv := hrun.revchar hrev
    have heqd : (runMoves (startGesture s (GestureStart.moveOn i dpx dpy)) ms).anns
        = (runMoves (startGesture s (GestureStart.moveOn i dpx dpy)) ms).dragStartAnns := by
      rw [heqv, hrun.dsa]
    obtain ⟨h1, _, _, _⟩ := handleMouseUp_noFinalize _ newId heqd
      (fun c hm _ => absurd hm hmod)
    rw [h1, hrun.undo]
  · intro hrev
    have hned : (runMoves (startGesture s (GestureStart.moveOn i dpx dpy)) ms).anns
        ≠ (runMoves (startGesture s (GestureStart.moveOn i dpx dpy)) ms).dragStartAnns := by
      rw [hrun.dsa]
      exact RevList.ne_of_rev _ _ hrev
    obtain ⟨h1, h2, _⟩ := handleMouseUp_of_ne _ newId hrun.hist hned hmod
    refine ⟨?_, h2⟩
    rw [h1, hrun.undo, hrun.dsa]

/-- Witness for the amended C3: a moveless click-drag on the example state
pushes nothing. -/
theorem select_drag_push_iff_replaced_witness :
    (handleMouseUp (runMoves (startGesture exampleState (GestureStart.moveOn "a1" 50 50)) [])
        "n1").undoStack = exampleState.undoStack :=
  (select_drag_push_iff_replaced exampleState "a1" 50 50 [] "n1"
    rfl rfl rfl rfl (by decide)).1 rfl

/-- C2 counterexample: on the main canvas, a resize event shrinking
`exampleBox` to a 2×2-pixel rectangle is committed unclamped (2 < 5), and
dragging the bottom-right handle past the top-left corner is rejected
outright (the 20-pixel geometry is retained) instead of clamping to the
5-pixel minimum. -/
theorem resize_main_canvas_no_min_clamp :
    smallResizeRun.anns.val.map (fun a => (yoloToSvg a 100 100).w) = [2] ∧
    invertedResizeRun.anns.val.map (fun a => (yoloToSvg a 100 100).w) = [20] ∧
    ¬ (5 : ℚ) ≤ 2 := by
  have h0 : handleResizeMouseDown exampleState HandleType.br = resizeState0 := by
    norm_num [handleResizeMouseDown, exampleState, resizeState0]
  have h1 : (handleMouseMove resizeState0 42 42).anns.val.map
      (fun a => (yoloToSvg a 100 100).w) = [2] := by
    norm_num [handleMouseMove, moveRest, resizeMove, resizeState0, exampleState,
      exampleBox, getMousePos, getSnapLines, getClosestSnap, getClosestSnapModal,
      snapStep, snapVisual, resizeDims, yoloToSvg, svgToYolo, applyGeom, commitAnns,
      historyEffect, List.find?, Option.some_ne_none]
  have h2 : (handleMouseMove resizeState0 35 35).anns.val.map
      (fun a => (yoloToSvg a 100 100).w) = [20] := by
    norm_num [handleMouseMove, moveRest, resizeMove, resizeState0, exampleState,
      exampleBox, getMousePos, getSnapLines, getClosestSnap, getClosestSnapModal,
      snapStep, snapVisual, resizeDims, yoloToSvg, svgToYolo, applyGeom, commitAnns,
      historyEffect, List.find?, Option.some_ne_none]
  refine ⟨?_, ?_, by norm_num⟩
  · show (handleMouseMove (handleResizeMouseDown exampleState HandleType.br)
        42 42).anns.val.map (fun a => (yoloToSvg a 100 100).w) = [2]
    rw [h0]
    exact h1
  · show (handleMouseMove (handleResizeMouseDown exampleState HandleType.br)
        35 35).anns.val.map (fun a => (yoloToSvg a 100 100).w) = [20]
    rw [h0]
    exact h2

/-- C2 amended: in the model-manager canvas every resize event clamps both
recomputed dimensions to the 5-pixel minimum while the opposite corner
stays fixed, and dragging the bottom-right handle left of/above the
top-left corner yields exactly the 5×5 minimum; the main canvas applies no
such clamp (it rejects non-positive dimensions and accepts any positive
ones unchanged). -/
theorem resize_clamp_correct (rect : Rect) (handle : HandleType) (mx my : ℚ) :
    (5 ≤ (resizeRectModal rect handle mx my).w ∧
     5 ≤ (resizeRectModal rect handle mx my).h) ∧
    (handle = HandleType.tl →
      (resizeRectModal rect handle mx my).x + (resizeRectModal rect handle mx my).w
          = rect.x + rect.w ∧
      (resizeRectModal rect handle mx my).y + (resizeRectModal rect handle mx my).h
          = rect.y + rect.h) ∧
    (handle = HandleType.tr →
      (resizeRectModal rect handle mx my).x = rect.x ∧
      (resizeRectModal rect handle mx my).y + (resizeRectModal rect handle mx my).h
          = rect.y + rect.h) ∧
    (handle = HandleType.bl →
      (resizeRectModal rect handle mx my).x + (resizeRectModal rect handle mx my).w
          = rect.x + rect.w ∧
      (resizeRectModal rect handle mx my).y = rect.y) ∧
    (handle = HandleType.br →
      (resizeRectModal rect handle mx my).x = rect.x ∧
      (resizeRectModal rect handle mx my).y = rect.y ∧
      (mx < rect.x → (resizeRectModal rect handle mx my).w = 5) ∧
      (my < rect.y → (resizeRectModal rect handle mx my).h = 5)) := by
  cases handle with
  | tl =>
      refine ⟨⟨?_, ?_⟩, fun _ => ⟨?_, ?_⟩, fun hcon => HandleType.noConfusion hcon,
        fun hcon => HandleType.noConfusion hcon, fun hcon => HandleType.noConfusion hcon⟩
      · show 5 ≤ rect.x + rect.w - min mx (rect.x + rect.w - 5)
        have := min_le_right mx (rect.x + rect.w - 5)
        linarith
      · show 5 ≤ rect.y + rect.h - min my (rect.y + rect.h - 5)
        have := min_le_right my (rect.y + rect.h - 5)
        linarith
      · show min mx (rect.x + rect.w - 5) + (rect.x + rect.w - min mx (rect.x + rect.w - 5))
            = rect.x + rect.w
        ring
      · show min my (rect.y + rect.h - 5) + (rect.y + rect.h - min my (rect.y + rect.h - 5))
            = rect.y + rect.h
        ring
  | tr =>
      refine ⟨⟨?_, ?_⟩, fun hcon => HandleType.noConfusion hcon, fun _ => ⟨rfl, ?_⟩,
        fun hcon => HandleType.noConfusion hcon, fun hcon => HandleType.noConfusion hcon⟩
      · exact le_max_right _ _
      · show 5 ≤ rect.y + rect.h - min my (rect.y + rect.h - 5)
        have := min_le_right my (rect.y + rect.h - 5)
        linarith
      · show min my (rect.y + rect.h - 5) + (rect.y + rect.h - min my (rect.y + rect.h - 5))
            = rect.y + rect.h
        ring
  | bl =>
      refine ⟨⟨?_, ?_⟩, fun hcon => HandleType.noConfusion hcon,
        fun hcon => HandleType.noConfusion hcon,
        fun _ => ⟨?_, rfl⟩, fun hcon => HandleType.noConfusion hcon⟩
      · show 5 ≤ rect.x + rect.w - min mx (rect.x + rect.w - 5)
        have := min_le_right mx (rect.x + rect.w - 5)
        linarith
      · exact le_max_right _ _
      · show min mx (rect.x + rect.w - 5) + (rect.x + rect.w - min mx (rect.x + rect.w - 5))
            = rect.x + rect.w
        ring
  | br =>
      refine ⟨⟨le_max_right _ _, le_max_right _ _⟩, fun hcon => HandleType.noConfusion hcon,
        fun hcon => HandleType.noConfusion hcon, fun hcon => HandleType.noConfusion hcon,
        fun _ => ⟨rfl, rfl, ?_, ?_⟩⟩
      · intro hx
        show max (mx - rect.x) 5 = 5
        exact max_eq_right (by linarith)
      · intro hy
        show max (my - rect.y) 5 = 5
        exact max_eq_right (by linarith)

/-- Witness for the amended C2: the bottom-right handle of the pixel rect
(40, 40, 20, 20) dragged to (35, 35) gives the 5×5 minimum with the
top-left corner fixed. -/
theorem resize_clamp_correct_witness :
    (resizeRectModal ⟨40, 40, 20, 20⟩ HandleType.br 35 35).w = 5 ∧
    (resizeRectModal ⟨40, 40, 20, 20⟩ HandleType.br 35 35).x = 40 ∧
    5 ≤ (resizeRectModal ⟨40, 40, 20, 20⟩ HandleType.br 35 35).h := by
  obtain ⟨hwh, _, _, _, hbr⟩ := resize_clamp_correct ⟨40, 40, 20, 20⟩ HandleType.br 35 35
  obtain ⟨hx, _, hw, _⟩ := hbr rfl
  exact ⟨hw (by norm_num), hx, hwh.2⟩

end AutoLabel

namespace AutoLabel

theorem getClosestSnap_snapped (spx v t : ℚ) (lines : List ℚ)
    (h : (getClosestSnap spx v lines t).snapped = true) :
    (getClosestSnap spx v lines t).val ∈ lines ∧
    |v - (getClosestSnap spx v lines t).val| < t := by
  by_cases hspx : spx ≤ 0
  · unfold getClosestSnap at h
    rw [if_pos hspx] at h
    simp at h
  · unfold getClosestSnap at h ⊢
    rw [if_neg hspx] at h ⊢
    by_cases hex : ∃ l ∈ lines, |v - l| < t
    · obtain ⟨_, hmineq, hlt, pre, post, heq, _⟩ := snapFold_of_hit v lines ⟨v, false, t⟩ hex
      constructor
      · show (lines.foldl (snapStep v) ⟨v, false, t⟩).closest ∈ lines
        have hmem : (lines.foldl (snapStep v) ⟨v, false, t⟩).closest ∈
            pre ++ (lines.foldl (snapStep v) ⟨v, false, t⟩).closest :: post := by simp
        rw [← heq] at hmem
        exact hmem
      · show |v - (lines.foldl (snapStep v) ⟨v, false, t⟩).closest| < t
        rw [← hmineq]
        exact hlt
    · exfalso
      push_neg at hex
      have hfix := snapFold_of_none v lines ⟨v, false, t⟩ (fun l hl => hex l hl)
      have hfalse : (getClosestSnapModal v lines t).snapped = false := by
        unfold getClosestSnapModal
        rw [hfix]
      rw [hfalse] at h
      exact Bool.false_ne_true h

/-- C6: per axis of a move event, if the leading edge snaps the box is
positioned so that edge coincides with the candidate line; otherwise if
the trailing edge snaps the box is positioned by that edge; otherwise the
raw pointer-delta-translated position is used; and the write-back keeps
the box's width, height and identity unchanged. -/
theorem move_snap_correct (spx t edge0 len : ℚ) (lines : List ℚ)
    (a0 : BBox) (iw ih : ℚ) (hiw : iw ≠ 0) (hih : ih ≠ 0) :
    ((getClosestSnap spx edge0 lines t).snapped = true →
      (moveAxis spx edge0 len lines t).1 = (getClosestSnap spx edge0 lines t).val ∧
      (getClosestSnap spx edge0 lines t).val ∈ lines ∧
      |edge0 - (getClosestSnap spx edge0 lines t).val| < t) ∧
    ((getClosestSnap spx edge0 lines t).snapped = false →
     (getClosestSnap spx (edge0 + len) lines t).snapped = true →
      (moveAxis spx edge0 len lines t).1 + len
          = (getClosestSnap spx (edge0 + len) lines t).val ∧
      (getClosestSnap spx (edge0 + len) lines t).val ∈ lines ∧
      |(edge0 + len) - (getClosestSnap spx (edge0 + len) lines t).val| < t) ∧
    ((getClosestSnap spx edge0 lines t).snapped = false →
     (getClosestSnap spx (edge0 + len) lines t).snapped = false →
      (moveAxis spx edge0 len lines t).1 = edge0) ∧
    (∀ nx ny,
      (applyGeom a0 (svgToYolo nx ny (yoloToSvg a0 iw ih).w (yoloToSvg a0 iw ih).h iw ih)).w
          = a0.w ∧
      (applyGeom a0 (svgToYolo nx ny (yoloToSvg a0 iw ih).w (yoloToSvg a0 iw ih).h iw ih)).h
          = a0.h ∧
      (applyGeom a0 (svgToYolo nx ny (yoloToSvg a0 iw ih).w (yoloToSvg a0 iw ih).h iw ih)).id
          = a0.id) := by
  refine ⟨?_, ?_, ?_, ?_⟩
  · intro h1
    have hm := getClosestSnap_snapped spx edge0 t lines h1
    refine ⟨?_, hm.1, hm.2⟩
    simp only [moveAxis]
    rw [if_pos h1]
  · intro h1 h2
    have hm := getClosestSnap_snapped spx (edge0 + len) t lines h2
    refine ⟨?_, hm.1, hm.2⟩
    simp only [moveAxis]
    rw [if_neg (by rw [h1]; exact Bool.false_ne_true), if_pos h2]
    ring
  · intro h1 h2
    simp only [moveAxis]
    rw [if_neg (by rw [h1]; exact Bool.false_ne_true),
        if_neg (by rw [h2]; exact Bool.false_ne_true)]
  · intro nx ny
    refine ⟨?_, ?_, rfl⟩
    · show (yoloToSvg a0 iw ih).w / iw = a0.w
      show a0.w * iw / iw = a0.w
      exact mul_div_cancel_right₀ a0.w hiw
    · show (yoloToSvg a0 iw ih).h / ih = a0.h
      show a0.h * ih / ih = a0.h
      exact mul_div_cancel_right₀ a0.h hih

/-- Witness for C6: with snapping disabled neither edge snaps, so the raw
translated position is used, and the write-back preserves the width of
`exampleBox`. -/
theorem move_snap_correct_witness :
    (moveAxis 0 7 20 [0, 100] 0).1 = 7 ∧
    (applyGeom exampleBox (svgToYolo 50 50 (yoloToSvg exampleBox 100 100).w
        (yoloToSvg exampleBox 100 100).h 100 100)).w = exampleBox.w := by
  have h := move_snap_correct 0 0 7 20 [0, 100] exampleBox 100 100 (by norm_num) (by norm_num)
  exact ⟨h.2.2.1 rfl rfl, (h.2.2.2 50 50).1⟩

/-- C7: a draw gesture finalizes on pointer-up only if both rectangle
dimensions strictly exceed 5 pixels — smaller drags (4×4, or exactly 5×5)
are discarded with no annotated box and no history entry; a larger drag
appends exactly one box carrying the currently selected label class,
converted to normalized coordinates, which becomes the selection. -/
theorem draw_finalize_correct (s : CanvasState) (newId : String) (c : Rect)
    (hmode : s.mode = ToolMode.draw) (hac : s.activeCreation = some c)
    (hdsa : s.anns = s.dragStartAnns) (hprev : s.prevAnns = s.anns)
    (hpid : s.prevImageId = s.imageId) (hur : s.isUndoRedo = false) :
    ((c.w ≤ 5 ∨ c.h ≤ 5) →
      (handleMouseUp s newId).anns = s.anns ∧
      (handleMouseUp s newId).undoStack = s.undoStack ∧
      (handleMouseUp s newId).redoStack = s.redoStack ∧
      (handleMouseUp s newId).selectedAnnId = s.selectedAnnId) ∧
    (5 < c.w → 5 < c.h →
      (handleMouseUp s newId).anns.val
          = s.anns.val ++ [drawNewAnn c s.currentLabelId newId s.imageW s.imageH] ∧
      (drawNewAnn c s.currentLabelId newId s.imageW s.imageH).labelId = s.currentLabelId ∧
      (drawNewAnn c s.currentLabelId newId s.imageW s.imageH).w = c.w / s.imageW ∧
      (drawNewAnn c s.currentLabelId newId s.imageW s.imageH).h = c.h / s.imageH ∧
      (handleMouseUp s newId).selectedAnnId = some newId ∧
      (handleMouseUp s newId).undoStack = s.undoStack ++ [s.anns.val] ∧
      (handleMouseUp s newId).redoStack = []) := by
  constructor
  · intro hsmall
    have hnotbig : ¬(5 < c.w ∧ 5 < c.h) := by
      rcases hsmall with h | h
      · exact fun hb => absurd hb.1 (not_lt.mpr h)
      · exact fun hb => absurd hb.2 (not_lt.mpr h)
    obtain ⟨h1, h2, h3, h4⟩ := handleMouseUp_noFinalize s newId hdsa
      (fun c' _ hc' => by
        rw [hac] at hc'
        injection hc' with hcc
        rw [← hcc]
        exact hnotbig)
    exact ⟨h3, h1, h2, h4⟩
  · intro hw hh
    obtain ⟨h1, _, h3, h4, h5⟩ :=
      handleMouseUp_finalize s newId c hmode hac hdsa hprev hpid hur ⟨hw, hh⟩
    exact ⟨h1, rfl, rfl, rfl, h3, h4, h5⟩

/-- Witness for C7: on the draw-mode example state a 4×4 creation leaves
the undo stack alone and a 6×6 creation appends exactly one new annotated
box. -/
theorem draw_finalize_correct_witness :
    (handleMouseUp { exampleDrawState with activeCreation := some ⟨10, 10, 4, 4⟩ } "n2").undoStack
        = exampleDrawState.undoStack ∧
    (handleMouseUp { exampleDrawState with activeCreation := some ⟨10, 10, 6, 6⟩ } "n2").anns.val
        = exampleDrawState.anns.val ++ [drawNewAnn ⟨10, 10, 6, 6⟩ "l1" "n2" 100 100] := by
  constructor
  · exact ((draw_finalize_correct { exampleDrawState with activeCreation := some ⟨10, 10, 4, 4⟩ }
      "n2" ⟨10, 10, 4, 4⟩ rfl rfl rfl rfl rfl rfl).1 (Or.inl (by norm_num))).2.1
  · exact ((draw_finalize_correct { exampleDrawState with activeCreation := some ⟨10, 10, 6, 6⟩ }
      "n2" ⟨10, 10, 6, 6⟩ rfl rfl rfl rfl rfl rfl).2 (by norm_num) (by norm_num)).1

/-- C9: a MagicBox gesture finalized on pointer-up with both dimensions
above the minimum hands the drawn rectangle to the external handler and
performs no list replacement and no selection change — no annotated box is
created by the core. -/
theorem magic_box_no_core_change (anns : List BBox) (c : Rect)
    (labelId newId : String) (iw ih : ℚ)
    (hw : 5 < c.w) (hh : 5 < c.h) :
    modalMouseUpEffects ToolMode.magicBox anns (some c) labelId newId iw ih true
      = ⟨none, none, some c⟩ := by
  unfold modalMouseUpEffects
  dsimp only
  rw [if_pos ⟨hw, hh⟩, if_neg (by decide), if_pos ⟨rfl, rfl⟩]

/-- Witness for C9: a 10×10 MagicBox rectangle is handed over unchanged
with no list update. -/
theorem magic_box_no_core_change_witness :
    modalMouseUpEffects ToolMode.magicBox [exampleBox] (some ⟨0, 0, 10, 10⟩) "l1" "n9"
        100 100 true = ⟨none, none, some ⟨0, 0, 10, 10⟩⟩ :=
  magic_box_no_core_change [exampleBox] ⟨0, 0, 10, 10⟩ "l1" "n9" 100 100
    (by norm_num) (by norm_num)

theorem InvList.map_if (anns : List BBox) (i : String) (g : NormBox)
    (hinv : InvList anns) (hg : 0 < g.w ∧ 0 < g.h) :
    InvList (anns.map fun a => if a.id = i then applyGeom a g else a) := by
  intro a ha
  obtain ⟨b, hb, rfl⟩ := List.mem_map.mp ha
  by_cases hid : b.id = i
  · rw [if_pos hid]
    exact hg
  · rw [if_neg hid]
    exact hinv b hb

theorem resizeRectModal_five_le (rect : Rect) (handle : HandleType) (mx my : ℚ) :
    5 ≤ (resizeRectModal rect handle mx my).w ∧
    5 ≤ (resizeRectModal rect handle mx my).h := by
  cases handle
  case tl =>
    constructor
    · show 5 ≤ rect.x + rect.w - min mx (rect.x + rect.w - 5)
      have := min_le_right mx (rect.x + rect.w - 5)
      linarith
    · show 5 ≤ rect.y + rect.h - min my (rect.y + rect.h - 5)
      have := min_le_right my (rect.y + rect.h - 5)
      linarith
  case tr =>
    constructor
    · exact le_max_right _ _
    · show 5 ≤ rect.y + rect.h - min my (rect.y + rect.h - 5)
      have := min_le_right my (rect.y + rect.h - 5)
      linarith
  case bl =>
    constructor
    · show 5 ≤ rect.x + rect.w - min mx (rect.x + rect.w - 5)
      have := min_le_right mx (rect.x + rect.w - 5)
      linarith
    · exact le_max_right _ _
  case br =>
    exact ⟨le_max_right _ _, le_max_right _ _⟩

theorem InvHistory_performUndo (s : CanvasState) (h : InvHistory s) :
    InvHistory (performUndo s) := by
  obtain ⟨hcur, hundo, hredo⟩ := h
  unfold performUndo
  cases hL : s.undoStack.getLast? with
  | none => exact ⟨hcur, hundo, hredo⟩
  | some u =>
      have hu : InvList u := by
        obtain ⟨hne, hx⟩ := List.mem_getLast?_eq_getLast (show u ∈ s.undoStack.getLast? from hL)
        exact hx ▸ hundo _ (List.getLast_mem hne)
      have hdrop : ∀ l ∈ s.undoStack.dropLast, InvList l :=
        fun l hl => hundo l (List.dropLast_subset _ hl)
      unfold commitAnns historyEffect
      dsimp only
      split_ifs with h1 h2 h3 h4
      · exact ⟨hu, by simp, by simp⟩
      · exact ⟨hu, hdrop, fun l hl => by
          rcases List.mem_append.mp hl with hl' | hl'
          · exact hredo l hl'
          · rw [List.mem_singleton.mp hl']
            exact hcur⟩
      · exact absurd h4 (by simp)
      · exact ⟨hu, hdrop, fun l hl => by
          rcases List.mem_append.mp hl with hl' | hl'
          · exact hredo l hl'
          · rw [List.mem_singleton.mp hl']
            exact hcur⟩
      · exact ⟨hu, hdrop, fun l hl => by
          rcases List.mem_append.mp hl with hl' | hl'
          · exact hredo l hl'
          · rw [List.mem_singleton.mp hl']
            exact hcur⟩

theorem InvHistory_performRedo (s : CanvasState) (h : InvHistory s) :
    InvHistory (performRedo s) := by
  obtain ⟨hcur, hundo, hredo⟩ := h
  unfold performRedo
  cases hL : s.redoStack.getLast? with
  | none => exact ⟨hcur, hundo, hredo⟩
  | some r =>
      have hr : InvList r := by
        obtain ⟨hne, hx⟩ := List.mem_getLast?_eq_getLast (show r ∈ s.redoStack.getLast? from hL)
        exact hx ▸ hredo _ (List.getLast_mem hne)
      have hdrop : ∀ l ∈ s.redoStack.dropLast, InvList l :=
        fun l hl => hredo l (List.dropLast_subset _ hl)
      unfold commitAnns historyEffect
      dsimp only
      split_ifs with h1 h2 h3 h4
      · exact ⟨hr, by simp, by simp⟩
      · exact ⟨hr, fun l hl => by
          rcases List.mem_append.mp hl with hl' | hl'
          · exact hundo l hl'
          · rw [List.mem_singleton.mp hl']
            exact hcur, hdrop⟩
      · exact absurd h4 (by simp)
      · exact ⟨hr, fun l hl => by
          rcases List.mem_append.mp hl with hl' | hl'
          · exact hundo l hl'
          · rw [List.mem_singleton.mp hl']
            exact hcur, hdrop⟩
      · exact ⟨hr, fun l hl => by
          rcases List.mem_append.mp hl with hl' | hl'
          · exact hundo l hl'
          · rw [List.mem_singleton.mp hl']
            exact hcur, hdrop⟩

/-- C10: every editor operation — finalizing a draw, a move event, a
main-canvas resize event (accepted or rejected), a model-manager resize
event, and `undo()`/`redo()` — preserves the invariant that every
annotated box has positive width and height. -/
theorem size_invariant_preserved (iw ih : ℚ) (hiw : 0 < iw) (hih : 0 < ih) :
    (∀ (anns : List BBox) (c : Rect) (labelId newId : String),
      InvList anns → 5 < c.w → 5 < c.h →
      InvList (anns ++ [drawNewAnn c labelId newId iw ih])) ∧
    (∀ (anns : List BBox) (a0 : BBox) (i : String) (nx ny : ℚ),
      InvList anns → 0 < a0.w → 0 < a0.h →
      InvList (anns.map fun a => if a.id = i then
        applyGeom a (svgToYolo nx ny (yoloToSvg a0 iw ih).w (yoloToSvg a0 iw ih).h iw ih)
        else a)) ∧
    (∀ (anns : List BBox) (i : String) (nr : Rect),
      InvList anns →
      InvList (if 0 < nr.w ∧ 0 < nr.h then
          anns.map fun a => if a.id = i then
            applyGeom a (svgToYolo nr.x nr.y nr.w nr.h iw ih) else a
        else anns)) ∧
    (∀ (anns : List BBox) (i : String) (rect : Rect) (handle : HandleType) (ex ey : ℚ),
      InvList anns →
      InvList (anns.map fun a => if a.id = i then
        applyGeom a (svgToYolo (resizeRectModal rect handle ex ey).x
          (resizeRectModal rect handle ex ey).y (resizeRectModal rect handle ex ey).w
          (resizeRectModal rect handle ex ey).h iw ih) else a)) ∧
    (∀ s : CanvasState, InvHistory s →
      InvHistory (performUndo s) ∧ InvHistory (performRedo s)) := by
  refine ⟨?_, ?_, ?_, ?_, fun s h => ⟨InvHistory_performUndo s h, InvHistory_performRedo s h⟩⟩
  · intro anns c labelId newId hinv hw hh
    intro a ha
    rcases List.mem_append.mp ha with ha' | ha'
    · exact hinv a ha'
    · rw [List.mem_singleton.mp ha']
      constructor
      · show 0 < c.w / iw
        exact div_pos (by linarith) hiw
      · show 0 < c.h / ih
        exact div_pos (by linarith) hih
  · intro anns a0 i nx ny hinv hw hh
    refine InvList.map_if anns i _ hinv ⟨?_, ?_⟩
    · show 0 < a0.w * iw / iw
      exact div_pos (mul_pos hw hiw) hiw
    · show 0 < a0.h * ih / ih
      exact div_pos (mul_pos hh hih) hih
  · intro anns i nr hinv
    split_ifs with hpos
    · refine InvList.map_if anns i _ hinv ⟨?_, ?_⟩
      · show 0 < nr.w / iw
        exact div_pos hpos.1 hiw
      · show 0 < nr.h / ih
        exact div_pos hpos.2 hih
    · exact hinv
  · intro anns i rect handle ex ey hinv
    obtain ⟨h5w, h5h⟩ := resizeRectModal_five_le rect handle ex ey
    refine InvList.map_if anns i _ hinv ⟨?_, ?_⟩
    · show 0 < (resizeRectModal rect handle ex ey).w / iw
      exact div_pos (by linarith) hiw
    · show 0 < (resizeRectModal rect handle ex ey).h / ih
      exact div_pos (by linarith) hih

/-- Witness for C10: a concrete draw-append keeps the invariant, and so
does `undo()` on the example state. -/
theorem size_invariant_preserved_witness :
    InvList ([exampleBox] ++ [drawNewAnn ⟨10, 10, 6, 6⟩ "l1" "n2" 100 100]) ∧
    InvHistory (performUndo exampleState) := by
  have h := size_invariant_preserved 100 100 (by norm_num) (by norm_num)
  constructor
  · refine h.1 [exampleBox] ⟨10, 10, 6, 6⟩ "l1" "n2" ?_ (by norm_num) (by norm_num)
    intro a ha
    rw [List.mem_singleton.mp ha]
    constructor <;> norm_num [exampleBox]
  · refine (h.2.2.2.2 exampleState ⟨?_, ?_, ?_⟩).1
    · intro a ha
      rw [List.mem_singleton.mp ha]
      constructor <;> norm_num [exampleBox]
    · intro l hl
      exact absurd hl (List.not_mem_nil l)
    · intro l hl
      exact absurd hl (List.not_mem_nil l)

end AutoLabel
